import Mathlib

/-!
# Verification of the `awc-retry` middleware (`src/lib.rs`)

A shallow embedding of the retry middleware for `awc` clients. The crate
wraps an inner connector service and, per request, decides whether a
transport failure (or, per the spec's intent, an unsatisfactory response)
triggers another attempt, replaying a faithful clone of the request head
each time.

The embedding follows `src/lib.rs`:
* the data model (`RequestHead`, `RequestHeadType`, `Body`, `ResponseHead`,
  `ConnectRequest`, `ConnectResponse`, `SendRequestError`) mirrors the
  actix/awc types the middleware manipulates, with opaque payloads turned
  into plain data;
* `Inner.is_valid_response` and `clone_request_head_type` are direct
  transcriptions;
* `RetryService.call` is the attempt loop of `Service::call`, written with
  explicit fuel (the Rust loop terminates because `tries` grows to
  `max_retries`; the fuel argument carries that bound) and instrumented
  with the observable trace: the sequence of requests handed to the inner
  connector and the sequence of response heads handed to
  `is_valid_response` (the latter is observable because custom policies
  are caller-supplied functions).

The inner connector is modelled as a pure function from the call index
(how many calls were made before) and the request to a result, which
captures any sequential connector behaviour.
-/

namespace AwcRetry

/-- HTTP status codes, by their numeric value (`actix_http::http::StatusCode`). -/
abbrev StatusCode := Nat

/-- `StatusCode::OK`, i.e. 200. -/
def StatusCode.OK : StatusCode := 200

/-- `actix_web::dev::RequestHead`: the wire-relevant fields plus the
request-scoped extension data (`Extensions`), here an opaque association
list. Headers map a name to the ordered list of its values. -/
structure RequestHead where
  method : String
  uri : String
  version : Nat
  peer_addr : Option String
  headers : List (String × List String)
  extensions : List (String × String)
deriving DecidableEq, Repr

/-- `RequestHead::default()`: every field at its default; in particular the
extension data is empty. Only the `extensions` field survives into the
clone below, so the other defaults are immaterial. -/
def RequestHead.default : RequestHead :=
  { method := "GET", uri := "/", version := 11, peer_addr := Option.none,
    headers := [], extensions := [] }

/-- `actix_http::RequestHeadType`: an owned head, or a reference-counted
shared head with an optional extra header map. Sharing an `Rc` is modelled
as carrying the same head value. -/
inductive RequestHeadType where
  | owned (h : RequestHead)
  | rc (h : RequestHead) (header_map : Option (List (String × List String)))
deriving DecidableEq, Repr

/-- `actix_web::body::Body`: `None`, `Empty`, `Bytes`, or a boxed message
body (a stream; opaque, tagged by a number). Byte buffers are lists of
byte values. -/
inductive Body where
  | none
  | empty
  | bytes (b : List Nat)
  | message (tag : Nat)
deriving DecidableEq, Repr

/-- `actix_web::dev::ResponseHead`: status plus headers. -/
structure ResponseHead where
  status : StatusCode
  headers : List (String × List String)
deriving DecidableEq, Repr

/-- `ResponseHead::new(status)`: a fresh head with the given status and no
headers. -/
def ResponseHead.new (status : StatusCode) : ResponseHead :=
  { status := status, headers := [] }

/-- `awc::ConnectRequest`: an ordinary client request (head type, body,
optional peer address) or a tunnel/CONNECT establishment. -/
inductive ConnectRequest where
  | client (head : RequestHeadType) (body : Body) (addr : Option String)
  | tunnel (head : RequestHead) (addr : Option String)
deriving DecidableEq, Repr

/-- `awc::ClientResponse`: response head plus an opaque payload tag. -/
structure ClientResponse where
  head : ResponseHead
  payload : Nat
deriving DecidableEq, Repr

/-- `awc::ConnectResponse`: a client response, or an established tunnel
(response head plus an opaque framed connection tag). -/
inductive ConnectResponse where
  | client (r : ClientResponse)
  | tunnel (head : ResponseHead) (io : Nat)
deriving DecidableEq, Repr

/-- `awc::error::SendRequestError`, opaque, tagged by a number so that
"returned verbatim" is expressible as equality. -/
structure SendRequestError where
  tag : Nat
deriving DecidableEq, Repr

/-- `RetryPolicy` from `src/lib.rs`: a list of acceptable status codes, or
a caller-supplied predicate over the response head. -/
inductive RetryPolicy where
  | status (v : List StatusCode)
  | custom (f : ResponseHead → Bool)

/-- `Inner` from `src/lib.rs`: the retry budget (`max_retries`; each
request is tried `max_retries + 1` times) and the policy list. The Rust
field is a `u8`; its numeric value is what matters here. -/
structure Inner where
  max_retries : Nat
  policies : List RetryPolicy

/-- `Inner::is_valid_response` from `src/lib.rs` lines 26-38, transcribed:
`self.policies.iter().all(|policy| match policy { Status(v) => true,
Custom(func) => func(head) })`. Note the `Status` arm returns `true`
without consulting `v`, exactly as in the source. -/
def Inner.is_valid_response (inner : Inner) (head : ResponseHead) : Bool :=
  inner.policies.all fun policy =>
    match policy with
    | RetryPolicy.status _ => true
    | RetryPolicy.custom func => func head

/-- The closure body inside `is_valid_response`, factored out so theorems
can speak about a single policy's verdict on a head. -/
def RetryPolicy.accepts (policy : RetryPolicy) (head : ResponseHead) : Bool :=
  match policy with
  | RetryPolicy.status _ => true
  | RetryPolicy.custom func => func head

/-- `clone_request_head_type` from `src/lib.rs` lines 215-231: for an
owned head, start from `RequestHead::default()` and copy uri, method,
version, peer address and headers (the extension data keeps its default,
i.e. is not copied); for an `Rc` head, clone the handle (share the same
head) and the extra header map. -/
def clone_request_head_type (head_type : RequestHeadType) : RequestHeadType :=
  match head_type with
  | RequestHeadType.owned h =>
    let inner_head := RequestHead.default
    RequestHeadType.owned
      { inner_head with
        uri := h.uri, method := h.method, version := h.version,
        peer_addr := h.peer_addr, headers := h.headers }
  | RequestHeadType.rc h header_map =>
    RequestHeadType.rc h header_map

/-- A connector behaviour: given the number of calls made so far and the
request, return the response or the error. -/
abbrev Connector := Nat → ConnectRequest → Except SendRequestError ConnectResponse

/-- The observable outcome of one `RetryService::call`: the returned
result, the sequence of requests handed to the inner connector (so
`calls.length` is the number of connector calls), and the sequence of
response heads handed to `is_valid_response`. -/
structure CallOutcome where
  result : Except SendRequestError ConnectResponse
  calls : List ConnectRequest
  evals : List ResponseHead
deriving Repr

/-- The `Body::Bytes(b)` arm of `Service::call` (`src/lib.rs` lines
121-160). Each iteration clones the head, sends the same bytes, and on
`Ok(res)` matches on the response: for a client response it evaluates the
policies against `ResponseHead::new(StatusCode::OK)` — both branches of
that `if` then reach the `return Ok(res)` after the match (the `else`
merely bumps `tries` first); for a tunnel response both branches bump
`tries` and fall through to `return Ok(res)`. On `Err(e)` it returns `e`
once `tries == max_retries`, else bumps `tries` and loops. `fuel` bounds
the recursion; every reachable state has `fuel = max_retries + 1 - tries`,
so the `fuel = 0` fallback (which returns the error) is never taken. -/
def bytesLoop (inner : Inner) (conn : Connector) (head : RequestHeadType)
    (b : List Nat) (addr : Option String) :
    Nat → Nat → List ConnectRequest → List ResponseHead → CallOutcome
  | 0, _tries, sent, evals =>
    -- Out-of-fuel fallback, unreachable from the initial state (the loop
    -- keeps `fuel = max_retries + 1 - tries > 0`): perform the attempt and
    -- return its result without recursing.
    let h := clone_request_head_type head
    let req := ConnectRequest.client h (Body.bytes b) addr
    match conn sent.length req with
    | Except.ok res =>
      match res with
      | ConnectResponse.client _ =>
        { result := Except.ok res, calls := sent ++ [req],
          evals := evals ++ [ResponseHead.new StatusCode.OK] }
      | ConnectResponse.tunnel th _ =>
        { result := Except.ok res, calls := sent ++ [req],
          evals := evals ++ [th] }
    | Except.error e =>
      { result := Except.error e, calls := sent ++ [req], evals := evals }
  | Nat.succ f, tries, sent, evals =>
    let h := clone_request_head_type head
    let req := ConnectRequest.client h (Body.bytes b) addr
    match conn sent.length req with
    | Except.ok res =>
      match res with
      | ConnectResponse.client _ =>
        if inner.is_valid_response (ResponseHead.new StatusCode.OK) then
          { result := Except.ok res, calls := sent ++ [req],
            evals := evals ++ [ResponseHead.new StatusCode.OK] }
        else
          -- tries += 1 in the source, then control reaches `return Ok(res)`
          { result := Except.ok res, calls := sent ++ [req],
            evals := evals ++ [ResponseHead.new StatusCode.OK] }
      | ConnectResponse.tunnel th _ =>
        if inner.is_valid_response th then
          -- tries += 1 in the source, then `return Ok(res)`
          { result := Except.ok res, calls := sent ++ [req],
            evals := evals ++ [th] }
        else
          -- tries += 1 in the source, then `return Ok(res)`
          { result := Except.ok res, calls := sent ++ [req],
            evals := evals ++ [th] }
    | Except.error e =>
      if tries = inner.max_retries then
        { result := Except.error e, calls := sent ++ [req], evals := evals }
      else
        bytesLoop inner conn head b addr f (tries + 1) (sent ++ [req]) evals

/-- The `Body::Empty` arm (`src/lib.rs` lines 161-178): clone the head,
send an empty body; any `Ok(res)` is returned at once (no policy
evaluation); `Err(e)` is returned once `tries == max_retries`, else
`tries` is bumped and the loop repeats. -/
def emptyLoop (inner : Inner) (conn : Connector) (head : RequestHeadType)
    (addr : Option String) :
    Nat → Nat → List ConnectRequest → CallOutcome
  | 0, _tries, sent =>
    -- out-of-fuel fallback, unreachable from the initial state
    let h := clone_request_head_type head
    let req := ConnectRequest.client h Body.empty addr
    match conn sent.length req with
    | Except.ok res =>
      { result := Except.ok res, calls := sent ++ [req], evals := [] }
    | Except.error e =>
      { result := Except.error e, calls := sent ++ [req], evals := [] }
  | Nat.succ f, tries, sent =>
    let h := clone_request_head_type head
    let req := ConnectRequest.client h Body.empty addr
    match conn sent.length req with
    | Except.ok res =>
      { result := Except.ok res, calls := sent ++ [req], evals := [] }
    | Except.error e =>
      if tries = inner.max_retries then
        { result := Except.error e, calls := sent ++ [req], evals := [] }
      else
        emptyLoop inner conn head addr f (tries + 1) (sent ++ [req])

/-- The catch-all `_` arm (`src/lib.rs` lines 179-198), taken for
`Body::None` and `Body::Message` bodies: clone the head, send `Body::None`
in place of the original body; any `Ok(res)` is returned at once (no
policy evaluation); `Err(e)` is returned once `tries == max_retries`, else
`tries` is bumped and the loop repeats. -/
def otherLoop (inner : Inner) (conn : Connector) (head : RequestHeadType)
    (addr : Option String) :
    Nat → Nat → List ConnectRequest → CallOutcome
  | 0, _tries, sent =>
    -- out-of-fuel fallback, unreachable from the initial state
    let h := clone_request_head_type head
    let req := ConnectRequest.client h Body.none addr
    match conn sent.length req with
    | Except.ok res =>
      { result := Except.ok res, calls := sent ++ [req], evals := [] }
    | Except.error e =>
      { result := Except.error e, calls := sent ++ [req], evals := [] }
  | Nat.succ f, tries, sent =>
    let h := clone_request_head_type head
    let req := ConnectRequest.client h Body.none addr
    match conn sent.length req with
    | Except.ok res =>
      { result := Except.ok res, calls := sent ++ [req], evals := [] }
    | Except.error e =>
      if tries = inner.max_retries then
        { result := Except.error e, calls := sent ++ [req], evals := [] }
      else
        otherLoop inner conn head addr f (tries + 1) (sent ++ [req])

/-- `<RetryService as Service<ConnectRequest>>::call` (`src/lib.rs` lines
112-212): dispatch on the request kind and body kind; `tries` starts at
`0` (fuel accordingly at `max_retries + 1`). A tunnel request is passed
through with a single connector call, its result returned unmodified. -/
def RetryService.call (inner : Inner) (conn : Connector)
    (req : ConnectRequest) : CallOutcome :=
  match req with
  | ConnectRequest.client head body addr =>
    match body with
    | Body.bytes b =>
      bytesLoop inner conn head b addr (inner.max_retries + 1) 0 [] []
    | Body.empty =>
      emptyLoop inner conn head addr (inner.max_retries + 1) 0 []
    | _ =>
      otherLoop inner conn head addr (inner.max_retries + 1) 0 []
  | ConnectRequest.tunnel head addr =>
    match conn 0 (ConnectRequest.tunnel head addr) with
    | Except.ok r =>
      { result := Except.ok r, calls := [ConnectRequest.tunnel head addr],
        evals := [] }
    | Except.error e =>
      { result := Except.error e, calls := [ConnectRequest.tunnel head addr],
        evals := [] }

/-- The body the attempt loop actually hands to the connector for a given
request body: bytes and empty bodies are sent as they are, everything else
is replaced by `Body::None` (the catch-all arm). -/
def sentBody (body : Body) : Body :=
  match body with
  | Body.bytes b => Body.bytes b
  | Body.empty => Body.empty
  | _ => Body.none

/-- The (single, deterministic) request value every attempt of one call
hands to the connector: client requests get a cloned head and the sent
body, tunnel requests are passed through unchanged. -/
def sentRequest (req : ConnectRequest) : ConnectRequest :=
  match req with
  | ConnectRequest.client head body addr =>
    ConnectRequest.client (clone_request_head_type head) (sentBody body) addr
  | ConnectRequest.tunnel head addr =>
    ConnectRequest.tunnel head addr

/-! ### Concrete inputs used to exercise the embedding -/

/-- A connector that fails every call, with the call index as error tag. -/
def alwaysErrConn : Connector := fun i _ => Except.error { tag := i }

/-- A connector that answers every call with the same 200 client response. -/
def okClientConn : Connector :=
  fun _ _ => Except.ok (ConnectResponse.client
    { head := { status := 200, headers := [] }, payload := 0 })

/-- A connector that answers every call with a 500 client response carrying
a header, so a policy could in principle observe both. -/
def okClient500Conn : Connector :=
  fun _ _ => Except.ok (ConnectResponse.client
    { head := { status := 500, headers := [("x", ["y"])] }, payload := 3 })

/-- One retry, and a single custom policy that rejects every response. -/
def rejectAllInner : Inner :=
  { max_retries := 1, policies := [RetryPolicy.custom (fun _ => false)] }

/-- No retries, and a single status policy that should accept only 200. -/
def status200Inner : Inner :=
  { max_retries := 0, policies := [RetryPolicy.status [200]] }

/-- A request head with every field populated, including extension data. -/
def hdrX : RequestHead :=
  { method := "POST", uri := "/x", version := 11,
    peer_addr := some "peer", headers := [("a", ["1", "2"])],
    extensions := [("k", "v")] }

/-! ### Behaviour of the attempt loops

Each loop lemma is stated for an arbitrary reachable loop state and proved
by induction on the fuel; the claims instantiate them at the initial state
`fuel = max_retries + 1`, `tries = 0`, `sent = []`. -/

/-- Every call the bytes loop makes carries the cloned head, the original
bytes and the original address: the calls list extends `sent` by one or
more copies of that one request value. -/
theorem bytesLoop_calls_shape (inner : Inner) (conn : Connector)
    (head : RequestHeadType) (b : List Nat) (addr : Option String) :
    ∀ fuel tries sent evals, ∃ k, 1 ≤ k ∧
      (bytesLoop inner conn head b addr fuel tries sent evals).calls
        = sent ++ List.replicate k
            (ConnectRequest.client (clone_request_head_type head) (Body.bytes b) addr) := by
  intro fuel
  induction fuel with
  | zero =>
    intro tries sent evals
    refine ⟨1, le_refl 1, ?_⟩
    simp only [bytesLoop]
    cases hc : conn sent.length
        (ConnectRequest.client (clone_request_head_type head) (Body.bytes b) addr) with
    | ok res => cases res <;> simp [hc]
    | error e => simp [hc]
  | succ f ih =>
    intro tries sent evals
    cases hc : conn sent.length
        (ConnectRequest.client (clone_request_head_type head) (Body.bytes b) addr) with
    | ok res =>
      refine ⟨1, le_refl 1, ?_⟩
      simp only [bytesLoop]
      cases res <;> simp [hc]
    | error e =>
      by_cases ht : tries = inner.max_retries
      · refine ⟨1, le_refl 1, ?_⟩
        simp only [bytesLoop]
        simp [hc, ht]
      · obtain ⟨k, hk1, hk⟩ := ih (tries + 1)
          (sent ++ [ConnectRequest.client (clone_request_head_type head) (Body.bytes b) addr])
          evals
        refine ⟨k + 1, by omega, ?_⟩
        simp only [bytesLoop]
        simp [hc, ht, hk, List.replicate_succ, List.append_assoc]

/-- Same shape fact for the empty-body loop. -/
theorem emptyLoop_calls_shape (inner : Inner) (conn : Connector)
    (head : RequestHeadType) (addr : Option String) :
    ∀ fuel tries sent, ∃ k, 1 ≤ k ∧
      (emptyLoop inner conn head addr fuel tries sent).calls
        = sent ++ List.replicate k
            (ConnectRequest.client (clone_request_head_type head) Body.empty addr) := by
  intro fuel
  induction fuel with
  | zero =>
    intro tries sent
    refine ⟨1, le_refl 1, ?_⟩
    simp only [emptyLoop]
    cases hc : conn sent.length
        (ConnectRequest.client (clone_request_head_type head) Body.empty addr) with
    | ok res => simp [hc]
    | error e => simp [hc]
  | succ f ih =>
    intro tries sent
    cases hc : conn sent.length
        (ConnectRequest.client (clone_request_head_type head) Body.empty addr) with
    | ok res =>
      refine ⟨1, le_refl 1, ?_⟩
      simp only [emptyLoop]
      simp [hc]
    | error e =>
      by_cases ht : tries = inner.max_retries
      · refine ⟨1, le_refl 1, ?_⟩
        simp only [emptyLoop]
        simp [hc, ht]
      · obtain ⟨k, hk1, hk⟩ := ih (tries + 1)
          (sent ++ [ConnectRequest.client (clone_request_head_type head) Body.empty addr])
        refine ⟨k + 1, by omega, ?_⟩
        simp only [emptyLoop]
        simp [hc, ht, hk, List.replicate_succ, List.append_assoc]

/-- Same shape fact for the catch-all loop: every call carries `Body.none`. -/
theorem otherLoop_calls_shape (inner : Inner) (conn : Connector)
    (head : RequestHeadType) (addr : Option String) :
    ∀ fuel tries sent, ∃ k, 1 ≤ k ∧
      (otherLoop inner conn head addr fuel tries sent).calls
        = sent ++ List.replicate k
            (ConnectRequest.client (clone_request_head_type head) Body.none addr) := by
  intro fuel
  induction fuel with
  | zero =>
    intro tries sent
    refine ⟨1, le_refl 1, ?_⟩
    simp only [otherLoop]
    cases hc : conn sent.length
        (ConnectRequest.client (clone_request_head_type head) Body.none addr) with
    | ok res => simp [hc]
    | error e => simp [hc]
  | succ f ih =>
    intro tries sent
    cases hc : conn sent.length
        (ConnectRequest.client (clone_request_head_type head) Body.none addr) with
    | ok res =>
      refine ⟨1, le_refl 1, ?_⟩
      simp only [otherLoop]
      simp [hc]
    | error e =>
      by_cases ht : tries = inner.max_retries
      · refine ⟨1, le_refl 1, ?_⟩
        simp only [otherLoop]
        simp [hc, ht]
      · obtain ⟨k, hk1, hk⟩ := ih (tries + 1)
          (sent ++ [ConnectRequest.client (clone_request_head_type head) Body.none addr])
        refine ⟨k + 1, by omega, ?_⟩
        simp only [otherLoop]
        simp [hc, ht, hk, List.replicate_succ, List.append_assoc]

/-- If the connector fails every attempt of the bytes loop, a run from a
reachable state makes `max_retries + 1` calls in total and returns the
error of the last call. -/
theorem bytesLoop_err_run (inner : Inner) (conn : Connector)
    (head : RequestHeadType) (b : List Nat) (addr : Option String)
    (e : Nat → SendRequestError)
    (herr : ∀ i, conn i (ConnectRequest.client (clone_request_head_type head) (Body.bytes b) addr)
      = Except.error (e i)) :
    ∀ fuel tries sent evals, tries ≤ inner.max_retries →
      fuel = inner.max_retries + 1 - tries → sent.length = tries →
      (bytesLoop inner conn head b addr fuel tries sent evals).result
          = Except.error (e inner.max_retries) ∧
      (bytesLoop inner conn head b addr fuel tries sent evals).calls.length
          = inner.max_retries + 1 := by
  intro fuel
  induction fuel with
  | zero =>
    intro tries sent evals h1 h2 h3
    omega
  | succ f ih =>
    intro tries sent evals h1 h2 h3
    by_cases ht : tries = inner.max_retries
    · simp only [bytesLoop]
      rw [h3, herr tries]
      simp [ht]
      omega
    · simp only [bytesLoop]
      rw [h3, herr tries]
      simp only [ht, if_false]
      exact ih (tries + 1)
        (sent ++ [ConnectRequest.client (clone_request_head_type head) (Body.bytes b) addr])
        evals (by omega) (by omega) (by simp [h3])

/-- Same all-failures fact for the empty-body loop. -/
theorem emptyLoop_err_run (inner : Inner) (conn : Connector)
    (head : RequestHeadType) (addr : Option String)
    (e : Nat → SendRequestError)
    (herr : ∀ i, conn i (ConnectRequest.client (clone_request_head_type head) Body.empty addr)
      = Except.error (e i)) :
    ∀ fuel tries sent, tries ≤ inner.max_retries →
      fuel = inner.max_retries + 1 - tries → sent.length = tries →
      (emptyLoop inner conn head addr fuel tries sent).result
          = Except.error (e inner.max_retries) ∧
      (emptyLoop inner conn head addr fuel tries sent).calls.length
          = inner.max_retries + 1 := by
  intro fuel
  induction fuel with
  | zero =>
    intro tries sent h1 h2 h3
    omega
  | succ f ih =>
    intro tries sent h1 h2 h3
    by_cases ht : tries = inner.max_retries
    · simp only [emptyLoop]
      rw [h3, herr tries]
      simp [ht]
      omega
    · simp only [emptyLoop]
      rw [h3, herr tries]
      simp only [ht, if_false]
      exact ih (tries + 1)
        (sent ++ [ConnectRequest.client (clone_request_head_type head) Body.empty addr])
        (by omega) (by omega) (by simp [h3])

/-- Same all-failures fact for the catch-all loop. -/
theorem otherLoop_err_run (inner : Inner) (conn : Connector)
    (head : RequestHeadType) (addr : Option String)
    (e : Nat → SendRequestError)
    (herr : ∀ i, conn i (ConnectRequest.client (clone_request_head_type head) Body.none addr)
      = Except.error (e i)) :
    ∀ fuel tries sent, tries ≤ inner.max_retries →
      fuel = inner.max_retries + 1 - tries → sent.length = tries →
      (otherLoop inner conn head addr fuel tries sent).result
          = Except.error (e inner.max_retries) ∧
      (otherLoop inner conn head addr fuel tries sent).calls.length
          = inner.max_retries + 1 := by
  intro fuel
  induction fuel with
  | zero =>
    intro tries sent h1 h2 h3
    omega
  | succ f ih =>
    intro tries sent h1 h2 h3
    by_cases ht : tries = inner.max_retries
    · simp only [otherLoop]
      rw [h3, herr tries]
      simp [ht]
      omega
    · simp only [otherLoop]
      rw [h3, herr tries]
      simp only [ht, if_false]
      exact ih (tries + 1)
        (sent ++ [ConnectRequest.client (clone_request_head_type head) Body.none addr])
        (by omega) (by omega) (by simp [h3])

/-- If the bytes loop returns a success, the connector produced that very
response at some call. -/
theorem bytesLoop_ok_char (inner : Inner) (conn : Connector)
    (head : RequestHeadType) (b : List Nat) (addr : Option String) :
    ∀ fuel tries sent evals r,
      (bytesLoop inner conn head b addr fuel tries sent evals).result = Except.ok r →
      ∃ i, conn i (ConnectRequest.client (clone_request_head_type head) (Body.bytes b) addr)
        = Except.ok r := by
  intro fuel
  induction fuel with
  | zero =>
    intro tries sent evals r hr
    simp only [bytesLoop] at hr
    cases hc : conn sent.length
        (ConnectRequest.client (clone_request_head_type head) (Body.bytes b) addr) with
    | ok res =>
      rw [hc] at hr
      cases res <;> simp at hr <;> exact ⟨sent.length, by rw [hc, hr]⟩
    | error e =>
      rw [hc] at hr
      simp at hr
  | succ f ih =>
    intro tries sent evals r hr
    simp only [bytesLoop] at hr
    cases hc : conn sent.length
        (ConnectRequest.client (clone_request_head_type head) (Body.bytes b) addr) with
    | ok res =>
      rw [hc] at hr
      cases res with
      | client c =>
        rw [apply_ite CallOutcome.result] at hr
        simp at hr
        exact ⟨sent.length, by rw [hc, hr]⟩
      | tunnel th io =>
        rw [apply_ite CallOutcome.result] at hr
        simp at hr
        exact ⟨sent.length, by rw [hc, hr]⟩
    | error e =>
      rw [hc] at hr
      by_cases ht : tries = inner.max_retries
      · simp [ht] at hr
      · simp only [ht, if_false] at hr
        exact ih (tries + 1)
          (sent ++ [ConnectRequest.client (clone_request_head_type head) (Body.bytes b) addr])
          evals r hr

/-- If the empty-body loop returns a success, the connector produced it. -/
theorem emptyLoop_ok_char (inner : Inner) (conn : Connector)
    (head : RequestHeadType) (addr : Option String) :
    ∀ fuel tries sent r,
      (emptyLoop inner conn head addr fuel tries sent).result = Except.ok r →
      ∃ i, conn i (ConnectRequest.client (clone_request_head_type head) Body.empty addr)
        = Except.ok r := by
  intro fuel
  induction fuel with
  | zero =>
    intro tries sent r hr
    simp only [emptyLoop] at hr
    cases hc : conn sent.length
        (ConnectRequest.client (clone_request_head_type head) Body.empty addr) with
    | ok res =>
      rw [hc] at hr
      simp at hr
      exact ⟨sent.length, by rw [hc, hr]⟩
    | error e =>
      rw [hc] at hr
      simp at hr
  | succ f ih =>
    intro tries sent r hr
    simp only [emptyLoop] at hr
    cases hc : conn sent.length
        (ConnectRequest.client (clone_request_head_type head) Body.empty addr) with
    | ok res =>
      rw [hc] at hr
      simp at hr
      exact ⟨sent.length, by rw [hc, hr]⟩
    | error e =>
      rw [hc] at hr
      by_cases ht : tries = inner.max_retries
      · simp [ht] at hr
      · simp only [ht, if_false] at hr
        exact ih (tries + 1)
          (sent ++ [ConnectRequest.client (clone_request_head_type head) Body.empty addr])
          r hr

/-- If the catch-all loop returns a success, the connector produced it. -/
theorem otherLoop_ok_char (inner : Inner) (conn : Connector)
    (head : RequestHeadType) (addr : Option String) :
    ∀ fuel tries sent r,
      (otherLoop inner conn head addr fuel tries sent).result = Except.ok r →
      ∃ i, conn i (ConnectRequest.client (clone_request_head_type head) Body.none addr)
        = Except.ok r := by
  intro fuel
  induction fuel with
  | zero =>
    intro tries sent r hr
    simp only [otherLoop] at hr
    cases hc : conn sent.length
        (ConnectRequest.client (clone_request_head_type head) Body.none addr) with
    | ok res =>
      rw [hc] at hr
      simp at hr
      exact ⟨sent.length, by rw [hc, hr]⟩
    | error e =>
      rw [hc] at hr
      simp at hr
  | succ f ih =>
    intro tries sent r hr
    simp only [otherLoop] at hr
    cases hc : conn sent.length
        (ConnectRequest.client (clone_request_head_type head) Body.none addr) with
    | ok res =>
      rw [hc] at hr
      simp at hr
      exact ⟨sent.length, by rw [hc, hr]⟩
    | error e =>
      rw [hc] at hr
      by_cases ht : tries = inner.max_retries
      · simp [ht] at hr
      · simp only [ht, if_false] at hr
        exact ih (tries + 1)
          (sent ++ [ConnectRequest.client (clone_request_head_type head) Body.none addr])
          r hr

/-- If the bytes loop, started from a reachable state, returns an error,
then the budget was exhausted (`max_retries + 1` calls in total) and every
remaining call of the run got an error from the connector. -/
theorem bytesLoop_err_char (inner : Inner) (conn : Connector)
    (head : RequestHeadType) (b : List Nat) (addr : Option String) :
    ∀ fuel tries sent evals e, tries ≤ inner.max_retries →
      fuel = inner.max_retries + 1 - tries → sent.length = tries →
      (bytesLoop inner conn head b addr fuel tries sent evals).result = Except.error e →
      (bytesLoop inner conn head b addr fuel tries sent evals).calls.length
          = inner.max_retries + 1 ∧
      ∀ i, tries ≤ i → i ≤ inner.max_retries →
        ∃ e2, conn i (ConnectRequest.client (clone_request_head_type head) (Body.bytes b) addr)
          = Except.error e2 := by
  intro fuel
  induction fuel with
  | zero =>
    intro tries sent evals e h1 h2 h3 hr
    omega
  | succ f ih =>
    intro tries sent evals e h1 h2 h3 hr
    cases hc : conn sent.length
        (ConnectRequest.client (clone_request_head_type head) (Body.bytes b) addr) with
    | ok res =>
      exfalso
      simp only [bytesLoop] at hr
      rw [hc] at hr
      cases res with
      | client c =>
        rw [apply_ite CallOutcome.result] at hr
        simp at hr
      | tunnel th io =>
        rw [apply_ite CallOutcome.result] at hr
        simp at hr
    | error e1 =>
      by_cases ht : tries = inner.max_retries
      · constructor
        · simp only [bytesLoop]
          rw [hc]
          simp [ht]
          omega
        · intro i hi1 hi2
          have hieq : i = tries := by omega
          refine ⟨e1, ?_⟩
          rw [hieq, ← h3, hc]
      · simp only [bytesLoop] at hr ⊢
        rw [hc] at hr ⊢
        simp only [ht, if_false] at hr ⊢
        obtain ⟨hlen, hall⟩ := ih (tries + 1)
          (sent ++ [ConnectRequest.client (clone_request_head_type head) (Body.bytes b) addr])
          evals e (by omega) (by omega) (by simp [h3]) hr
        refine ⟨hlen, ?_⟩
        intro i hi1 hi2
        by_cases hie : i = tries
        · exact ⟨e1, by rw [hie, ← h3, hc]⟩
        · exact hall i (by omega) hi2

/-- Same error characterisation for the empty-body loop. -/
theorem emptyLoop_err_char (inner : Inner) (conn : Connector)
    (head : RequestHeadType) (addr : Option String) :
    ∀ fuel tries sent e, tries ≤ inner.max_retries →
      fuel = inner.max_retries + 1 - tries → sent.length = tries →
      (emptyLoop inner conn head addr fuel tries sent).result = Except.error e →
      (emptyLoop inner conn head addr fuel tries sent).calls.length
          = inner.max_retries + 1 ∧
      ∀ i, tries ≤ i → i ≤ inner.max_retries →
        ∃ e2, conn i (ConnectRequest.client (clone_request_head_type head) Body.empty addr)
          = Except.error e2 := by
  intro fuel
  induction fuel with
  | zero =>
    intro tries sent e h1 h2 h3 hr
    omega
  | succ f ih =>
    intro tries sent e h1 h2 h3 hr
    cases hc : conn sent.length
        (ConnectRequest.client (clone_request_head_type head) Body.empty addr) with
    | ok res =>
      exfalso
      simp only [emptyLoop] at hr
      rw [hc] at hr
      simp at hr
    | error e1 =>
      by_cases ht : tries = inner.max_retries
      · constructor
        · simp only [emptyLoop]
          rw [hc]
          simp [ht]
          omega
        · intro i hi1 hi2
          have hieq : i = tries := by omega
          refine ⟨e1, ?_⟩
          rw [hieq, ← h3, hc]
      · simp only [emptyLoop] at hr ⊢
        rw [hc] at hr ⊢
        simp only [ht, if_false] at hr ⊢
        obtain ⟨hlen, hall⟩ := ih (tries + 1)
          (sent ++ [ConnectRequest.client (clone_request_head_type head) Body.empty addr])
          e (by omega) (by omega) (by simp [h3]) hr
        refine ⟨hlen, ?_⟩
        intro i hi1 hi2
        by_cases hie : i = tries
        · exact ⟨e1, by rw [hie, ← h3, hc]⟩
        · exact hall i (by omega) hi2

/-- Same error characterisation for the catch-all loop. -/
theorem otherLoop_err_char (inner : Inner) (conn : Connector)
    (head : RequestHeadType) (addr : Option String) :
    ∀ fuel tries sent e, tries ≤ inner.max_retries →
      fuel = inner.max_retries + 1 - tries → sent.length = tries →
      (otherLoop inner conn head addr fuel tries sent).result = Except.error e →
      (otherLoop inner conn head addr fuel tries sent).calls.length
          = inner.max_retries + 1 ∧
      ∀ i, tries ≤ i → i ≤ inner.max_retries →
        ∃ e2, conn i (ConnectRequest.client (clone_request_head_type head) Body.none addr)
          = Except.error e2 := by
  intro fuel
  induction fuel with
  | zero =>
    intro tries sent e h1 h2 h3 hr
    omega
  | succ f ih =>
    intro tries sent e h1 h2 h3 hr
    cases hc : conn sent.length
        (ConnectRequest.client (clone_request_head_type head) Body.none addr) with
    | ok res =>
      exfalso
      simp only [otherLoop] at hr
      rw [hc] at hr
      simp at hr
    | error e1 =>
      by_cases ht : tries = inner.max_retries
      · constructor
        · simp only [otherLoop]
          rw [hc]
          simp [ht]
          omega
        · intro i hi1 hi2
          have hieq : i = tries := by omega
          refine ⟨e1, ?_⟩
          rw [hieq, ← h3, hc]
      · simp only [otherLoop] at hr ⊢
        rw [hc] at hr ⊢
        simp only [ht, if_false] at hr ⊢
        obtain ⟨hlen, hall⟩ := ih (tries + 1)
          (sent ++ [ConnectRequest.client (clone_request_head_type head) Body.none addr])
          e (by omega) (by omega) (by simp [h3]) hr
        refine ⟨hlen, ?_⟩
        intro i hi1 hi2
        by_cases hie : i = tries
        · exact ⟨e1, by rw [hie, ← h3, hc]⟩
        · exact hall i (by omega) hi2

/-- If the first call of the catch-all loop succeeds, the loop returns that
very response after exactly one call. -/
theorem otherLoop_first_ok (inner : Inner) (conn : Connector)
    (head : RequestHeadType) (addr : Option String) (fuel tries : Nat)
    (r : ConnectResponse)
    (hc : conn 0 (ConnectRequest.client (clone_request_head_type head) Body.none addr)
      = Except.ok r) :
    (otherLoop inner conn head addr fuel tries []).result = Except.ok r ∧
    (otherLoop inner conn head addr fuel tries []).calls
      = [ConnectRequest.client (clone_request_head_type head) Body.none addr] := by
  cases fuel with
  | zero =>
    simp only [otherLoop]
    rw [show (([] : List ConnectRequest)).length = 0 from rfl, hc]
    simp
  | succ f =>
    simp only [otherLoop]
    rw [show (([] : List ConnectRequest)).length = 0 from rfl, hc]
    simp

/-- The empty-body loop never evaluates any policy. -/
theorem emptyLoop_evals (inner : Inner) (conn : Connector)
    (head : RequestHeadType) (addr : Option String) :
    ∀ fuel tries sent,
      (emptyLoop inner conn head addr fuel tries sent).evals = [] := by
  intro fuel
  induction fuel with
  | zero =>
    intro tries sent
    simp only [emptyLoop]
    cases hc : conn sent.length
        (ConnectRequest.client (clone_request_head_type head) Body.empty addr) with
    | ok res => simp [hc]
    | error e => simp [hc]
  | succ f ih =>
    intro tries sent
    simp only [emptyLoop]
    cases hc : conn sent.length
        (ConnectRequest.client (clone_request_head_type head) Body.empty addr) with
    | ok res => simp [hc]
    | error e =>
      by_cases ht : tries = inner.max_retries
      · simp [hc, ht]
      · simp only [hc, ht, if_false]
        exact ih (tries + 1)
          (sent ++ [ConnectRequest.client (clone_request_head_type head) Body.empty addr])

/-- The catch-all loop never evaluates any policy. -/
theorem otherLoop_evals (inner : Inner) (conn : Connector)
    (head : RequestHeadType) (addr : Option String) :
    ∀ fuel tries sent,
      (otherLoop inner conn head addr fuel tries sent).evals = [] := by
  intro fuel
  induction fuel with
  | zero =>
    intro tries sent
    simp only [otherLoop]
    cases hc : conn sent.length
        (ConnectRequest.client (clone_request_head_type head) Body.none addr) with
    | ok res => simp [hc]
    | error e => simp [hc]
  | succ f ih =>
    intro tries sent
    simp only [otherLoop]
    cases hc : conn sent.length
        (ConnectRequest.client (clone_request_head_type head) Body.none addr) with
    | ok res => simp [hc]
    | error e =>
      by_cases ht : tries = inner.max_retries
      · simp [hc, ht]
      · simp only [hc, ht, if_false]
        exact ih (tries + 1)
          (sent ++ [ConnectRequest.client (clone_request_head_type head) Body.none addr])

/-- In the bytes loop, if every successful connector answer is a client
response (no tunnel responses), every head handed to `is_valid_response`
during the run is an element of the accumulator or the freshly built
`ResponseHead::new(StatusCode::OK)`. -/
theorem bytesLoop_evals_fresh (inner : Inner) (conn : Connector)
    (head : RequestHeadType) (b : List Nat) (addr : Option String)
    (hclient : ∀ i res,
      conn i (ConnectRequest.client (clone_request_head_type head) (Body.bytes b) addr)
        = Except.ok res → ∃ c, res = ConnectResponse.client c) :
    ∀ fuel tries sent evals,
      ∀ x ∈ (bytesLoop inner conn head b addr fuel tries sent evals).evals,
        x ∈ evals ∨ x = ResponseHead.new StatusCode.OK := by
  intro fuel
  induction fuel with
  | zero =>
    intro tries sent evals x hx
    simp only [bytesLoop] at hx
    cases hc : conn sent.length
        (ConnectRequest.client (clone_request_head_type head) (Body.bytes b) addr) with
    | ok res =>
      rw [hc] at hx
      cases res with
      | client c =>
        simp at hx
        rcases hx with hx | hx
        · exact Or.inl hx
        · exact Or.inr hx
      | tunnel th io =>
        obtain ⟨c, hcc⟩ := hclient sent.length (ConnectResponse.tunnel th io) hc
        cases hcc
    | error e =>
      rw [hc] at hx
      simp at hx
      exact Or.inl hx
  | succ f ih =>
    intro tries sent evals x hx
    simp only [bytesLoop] at hx
    cases hc : conn sent.length
        (ConnectRequest.client (clone_request_head_type head) (Body.bytes b) addr) with
    | ok res =>
      rw [hc] at hx
      cases res with
      | client c =>
        rw [apply_ite CallOutcome.evals] at hx
        simp at hx
        rcases hx with hx | hx
        · exact Or.inl hx
        · exact Or.inr hx
      | tunnel th io =>
        obtain ⟨c, hcc⟩ := hclient sent.length (ConnectResponse.tunnel th io) hc
        cases hcc
    | error e =>
      rw [hc] at hx
      by_cases ht : tries = inner.max_retries
      · simp [ht] at hx
        exact Or.inl hx
      · simp only [ht, if_false] at hx
        exact ih (tries + 1)
          (sent ++ [ConnectRequest.client (clone_request_head_type head) (Body.bytes b) addr])
          evals x hx

/-! ### The claims -/

/-- Claim C1. The claim says: with a Buffered body, a connector that never
fails, `maxRetries = N` and every response policy-invalid, the call makes
exactly `N + 1` connector calls and returns the final invalid outcome; in
particular, on an invalid outcome with `attempt < maxRetries` it retries.
The code does not: with `max_retries = 1`, a policy rejecting everything,
and a connector that always answers a 200 client response, the call makes
exactly one connector call and returns that first outcome — the invalid
arm of the `Bytes` branch falls through to `return Ok(res)` instead of
looping (src/lib.rs lines 128-148). -/
theorem c1_code_returns_first_invalid_outcome :
    (RetryService.call rejectAllInner okClientConn
        (ConnectRequest.client (RequestHeadType.owned RequestHead.default)
          (Body.bytes [104, 105]) Option.none)).calls.length = 1 ∧
    (RetryService.call rejectAllInner okClientConn
        (ConnectRequest.client (RequestHeadType.owned RequestHead.default)
          (Body.bytes [104, 105]) Option.none)).result
      = Except.ok (ConnectResponse.client
          { head := { status := 200, headers := [] }, payload := 0 }) ∧
    rejectAllInner.is_valid_response (ResponseHead.new StatusCode.OK) = false ∧
    rejectAllInner.max_retries = 1 :=
  ⟨rfl, rfl, rfl, rfl⟩

/-- Claim C2. The claim says a `Status` policy accepts a head iff the
head's status is a member of the configured set. The code's `Status` arm
returns `true` without consulting the set (src/lib.rs line 30): a policy
configured to accept only 200 still accepts a 500 head, although `500`
is not in the configured list. -/
theorem c2_status_policy_never_compares :
    status200Inner.is_valid_response { status := 500, headers := [] } = true ∧
    (∀ head : ResponseHead, status200Inner.is_valid_response head = true) ∧
    ([(200 : StatusCode)].contains 500) = false :=
  ⟨rfl, fun _ => rfl, rfl⟩

/-- Claim C3, counterexample. The claim says a request with an
`Unreplayable` body causes exactly one connector call for every
`maxRetries` and connector behaviour. With `max_retries = 1` and a
connector failing every call, the run makes two calls, not one: the
catch-all body arm loops on transport errors like the replayable arms
(src/lib.rs lines 179-198). -/
theorem c3_counterexample :
    (RetryService.call { max_retries := 1, policies := [] } alwaysErrConn
        (ConnectRequest.client (RequestHeadType.owned RequestHead.default)
          (Body.message 0) Option.none)).calls.length = 2 ∧
    ((RetryService.call { max_retries := 1, policies := [] } alwaysErrConn
        (ConnectRequest.client (RequestHeadType.owned RequestHead.default)
          (Body.message 0) Option.none)).calls.length = 1 → False) := by
  refine ⟨rfl, ?_⟩
  intro h
  have h2 : (RetryService.call { max_retries := 1, policies := [] } alwaysErrConn
      (ConnectRequest.client (RequestHeadType.owned RequestHead.default)
        (Body.message 0) Option.none)).calls.length = 2 := rfl
  omega

/-- Claim C3, amended. For a request whose body is neither buffered nor
empty, every attempt sends the `None` body in place of the original, the
PolicySet is never evaluated, and a successful connector response is
returned unmodified after that one call; but transport errors do consume
the retry budget exactly as for replayable bodies: a connector failing
every attempt is called `max_retries + 1` times and the last error is
returned. -/
theorem c3_amended_unreplayable_retries_errors (inner : Inner) (conn : Connector)
    (head : RequestHeadType) (addr : Option String) (body : Body)
    (e : Nat → SendRequestError)
    (hb : ∀ bs, body = Body.bytes bs → False) (he : body = Body.empty → False) :
    (∀ r ∈ (RetryService.call inner conn (ConnectRequest.client head body addr)).calls,
      r = ConnectRequest.client (clone_request_head_type head) Body.none addr) ∧
    (RetryService.call inner conn (ConnectRequest.client head body addr)).evals = [] ∧
    ((∀ i, conn i (ConnectRequest.client (clone_request_head_type head) Body.none addr)
        = Except.error (e i)) →
      (RetryService.call inner conn (ConnectRequest.client head body addr)).calls.length
          = inner.max_retries + 1 ∧
      (RetryService.call inner conn (ConnectRequest.client head body addr)).result
          = Except.error (e inner.max_retries)) ∧
    (∀ r0, conn 0 (ConnectRequest.client (clone_request_head_type head) Body.none addr)
        = Except.ok r0 →
      (RetryService.call inner conn (ConnectRequest.client head body addr)).result
          = Except.ok r0 ∧
      (RetryService.call inner conn (ConnectRequest.client head body addr)).calls
          = [ConnectRequest.client (clone_request_head_type head) Body.none addr]) := by
  have key : RetryService.call inner conn (ConnectRequest.client head body addr)
      = otherLoop inner conn head addr (inner.max_retries + 1) 0 [] := by
    cases body with
    | none => rfl
    | empty => exact absurd rfl he
    | bytes bs => exact absurd rfl (hb bs)
    | message t => rfl
  rw [key]
  refine ⟨?_, otherLoop_evals inner conn head addr (inner.max_retries + 1) 0 [], ?_, ?_⟩
  · intro r hr
    obtain ⟨k, hk1, hk⟩ := otherLoop_calls_shape inner conn head addr
      (inner.max_retries + 1) 0 []
    rw [hk, List.nil_append] at hr
    exact List.eq_of_mem_replicate hr
  · intro herr
    have h := otherLoop_err_run inner conn head addr e herr (inner.max_retries + 1) 0 []
      (by omega) (by omega) rfl
    exact ⟨h.2, h.1⟩
  · intro r0 hc
    exact otherLoop_first_ok inner conn head addr (inner.max_retries + 1) 0 r0 hc

/-- Claim C3, amended, witness: an unreplayable body with `max_retries = 1`
and an always-failing connector gives two calls and the second call's
error. -/
theorem c3_amended_witness :
    (RetryService.call { max_retries := 1, policies := [] } alwaysErrConn
        (ConnectRequest.client (RequestHeadType.owned RequestHead.default)
          (Body.message 0) Option.none)).calls.length = 2 ∧
    (RetryService.call { max_retries := 1, policies := [] } alwaysErrConn
        (ConnectRequest.client (RequestHeadType.owned RequestHead.default)
          (Body.message 0) Option.none)).result = Except.error { tag := 1 } :=
  (c3_amended_unreplayable_retries_errors { max_retries := 1, policies := [] }
    alwaysErrConn (RequestHeadType.owned RequestHead.default) Option.none
    (Body.message 0) (fun i => { tag := i })
    (fun _ h => Body.noConfusion h) (fun h => Body.noConfusion h)).2.2.1
    (fun _ => rfl)

/-- Claim C4: for a Buffered or Empty body, if the connector returns a
transport error on every attempt, the call makes exactly
`max_retries + 1` connector calls and returns the last transport error
verbatim. -/
theorem c4_transport_failure_returns_last_error (inner : Inner) (conn : Connector)
    (head : RequestHeadType) (addr : Option String) (body : Body)
    (e : Nat → SendRequestError)
    (hbody : (∃ bs, body = Body.bytes bs) ∨ body = Body.empty)
    (herr : ∀ i, conn i (sentRequest (ConnectRequest.client head body addr))
      = Except.error (e i)) :
    (RetryService.call inner conn (ConnectRequest.client head body addr)).calls.length
        = inner.max_retries + 1 ∧
    (RetryService.call inner conn (ConnectRequest.client head body addr)).result
        = Except.error (e inner.max_retries) := by
  rcases hbody with ⟨bs, rfl⟩ | rfl
  · simp only [sentRequest, sentBody] at herr
    have h := bytesLoop_err_run inner conn head bs addr e herr (inner.max_retries + 1)
      0 [] [] (by omega) (by omega) rfl
    exact ⟨h.2, h.1⟩
  · simp only [sentRequest, sentBody] at herr
    have h := emptyLoop_err_run inner conn head addr e herr (inner.max_retries + 1)
      0 [] (by omega) (by omega) rfl
    exact ⟨h.2, h.1⟩

/-- Claim C4, witness: empty body, `max_retries = 1`, an always-failing
connector: two calls, and the second error (tag 1) comes back. -/
theorem c4_witness :
    (RetryService.call { max_retries := 1, policies := [] } alwaysErrConn
        (ConnectRequest.client (RequestHeadType.owned RequestHead.default)
          Body.empty Option.none)).calls.length = 2 ∧
    (RetryService.call { max_retries := 1, policies := [] } alwaysErrConn
        (ConnectRequest.client (RequestHeadType.owned RequestHead.default)
          Body.empty Option.none)).result = Except.error { tag := 1 } :=
  c4_transport_failure_returns_last_error { max_retries := 1, policies := [] }
    alwaysErrConn (RequestHeadType.owned RequestHead.default) Option.none
    Body.empty (fun i => { tag := i }) (Or.inr rfl) (fun _ => rfl)

/-- Claim C5: a tunnel request causes exactly one connector call, with the
request passed through unchanged, and the connector's result (success or
failure) is returned unmodified, for every budget and policy list. -/
theorem c5_tunnel_single_call (inner : Inner) (conn : Connector)
    (head : RequestHead) (addr : Option String) :
    (RetryService.call inner conn (ConnectRequest.tunnel head addr)).calls
        = [ConnectRequest.tunnel head addr] ∧
    (RetryService.call inner conn (ConnectRequest.tunnel head addr)).result
        = conn 0 (ConnectRequest.tunnel head addr) := by
  simp only [RetryService.call]
  cases hc : conn 0 (ConnectRequest.tunnel head addr) with
  | ok r => simp [hc]
  | error e => simp [hc]

/-- Claim C6: the cloned head agrees with the original field for field on
method, URI, version, peer address and headers; for an owned head the
extension data is not copied (the clone's extensions are the default,
empty, whatever the original carried), and an `Rc` head is shared as-is
(no fresh copy of anything is made); and in the Buffered path every
attempt hands the connector the cloned head with byte-for-byte the
original buffer. -/
theorem c6_replay_preserves_fields :
    (∀ h : RequestHead,
      clone_request_head_type (RequestHeadType.owned h)
        = RequestHeadType.owned
            { method := h.method, uri := h.uri, version := h.version,
              peer_addr := h.peer_addr, headers := h.headers, extensions := [] }) ∧
    (∀ h header_map,
      clone_request_head_type (RequestHeadType.rc h header_map)
        = RequestHeadType.rc h header_map) ∧
    (∀ (inner : Inner) (conn : Connector) (head : RequestHeadType) (b : List Nat)
        (addr : Option String),
      ∀ r ∈ (RetryService.call inner conn
          (ConnectRequest.client head (Body.bytes b) addr)).calls,
        r = ConnectRequest.client (clone_request_head_type head) (Body.bytes b) addr) := by
  refine ⟨fun h => rfl, fun h m => rfl, ?_⟩
  intro inner conn head b addr r hr
  obtain ⟨k, hk1, hk⟩ := bytesLoop_calls_shape inner conn head b addr
    (inner.max_retries + 1) 0 [] []
  simp only [RetryService.call] at hr
  rw [hk, List.nil_append] at hr
  exact List.eq_of_mem_replicate hr

/-- Claim C7: the call never turns a policy-rejected response into an
error. Any success it returns was produced by the connector, and whenever
it returns an error, every call of the run got a connector error (no
successful response was rejected into a failure) and the budget was
exhausted: `max_retries + 1` calls for a client request, the single
bypass call for a tunnel request. -/
theorem c7_errors_only_after_budget (inner : Inner) (conn : Connector)
    (req : ConnectRequest) :
    (∀ r, (RetryService.call inner conn req).result = Except.ok r →
      ∃ i, conn i (sentRequest req) = Except.ok r) ∧
    (∀ e, (RetryService.call inner conn req).result = Except.error e →
      (∀ i, i < (RetryService.call inner conn req).calls.length →
        ∃ e2, conn i (sentRequest req) = Except.error e2) ∧
      ((∃ h b a, req = ConnectRequest.client h b a) →
        (RetryService.call inner conn req).calls.length = inner.max_retries + 1) ∧
      ((∃ h a, req = ConnectRequest.tunnel h a) →
        (RetryService.call inner conn req).calls.length = 1)) := by
  cases req with
  | client head body addr =>
    cases body with
    | bytes b =>
      constructor
      · intro r hr
        simp only [RetryService.call] at hr
        simp only [sentRequest, sentBody]
        exact bytesLoop_ok_char inner conn head b addr (inner.max_retries + 1) 0 [] [] r hr
      · intro e he
        simp only [RetryService.call] at he ⊢
        simp only [sentRequest, sentBody]
        obtain ⟨hlen, hall⟩ := bytesLoop_err_char inner conn head b addr
          (inner.max_retries + 1) 0 [] [] e (by omega) (by omega) rfl he
        refine ⟨?_, fun _ => hlen, ?_⟩
        · intro i hi
          rw [hlen] at hi
          exact hall i (by omega) (by omega)
        · rintro ⟨h2, a2, habs⟩
          exact ConnectRequest.noConfusion habs
    | empty =>
      constructor
      · intro r hr
        simp only [RetryService.call] at hr
        simp only [sentRequest, sentBody]
        exact emptyLoop_ok_char inner conn head addr (inner.max_retries + 1) 0 [] r hr
      · intro e he
        simp only [RetryService.call] at he ⊢
        simp only [sentRequest, sentBody]
        obtain ⟨hlen, hall⟩ := emptyLoop_err_char inner conn head addr
          (inner.max_retries + 1) 0 [] e (by omega) (by omega) rfl he
        refine ⟨?_, fun _ => hlen, ?_⟩
        · intro i hi
          rw [hlen] at hi
          exact hall i (by omega) (by omega)
        · rintro ⟨h2, a2, habs⟩
          exact ConnectRequest.noConfusion habs
    | none =>
      constructor
      · intro r hr
        simp only [RetryService.call] at hr
        simp only [sentRequest, sentBody]
        exact otherLoop_ok_char inner conn head addr (inner.max_retries + 1) 0 [] r hr
      · intro e he
        simp only [RetryService.call] at he ⊢
        simp only [sentRequest, sentBody]
        obtain ⟨hlen, hall⟩ := otherLoop_err_char inner conn head addr
          (inner.max_retries + 1) 0 [] e (by omega) (by omega) rfl he
        refine ⟨?_, fun _ => hlen, ?_⟩
        · intro i hi
          rw [hlen] at hi
          exact hall i (by omega) (by omega)
        · rintro ⟨h2, a2, habs⟩
          exact ConnectRequest.noConfusion habs
    | message t =>
      constructor
      · intro r hr
        simp only [RetryService.call] at hr
        simp only [sentRequest, sentBody]
        exact otherLoop_ok_char inner conn head addr (inner.max_retries + 1) 0 [] r hr
      · intro e he
        simp only [RetryService.call] at he ⊢
        simp only [sentRequest, sentBody]
        obtain ⟨hlen, hall⟩ := otherLoop_err_char inner conn head addr
          (inner.max_retries + 1) 0 [] e (by omega) (by omega) rfl he
        refine ⟨?_, fun _ => hlen, ?_⟩
        · intro i hi
          rw [hlen] at hi
          exact hall i (by omega) (by omega)
        · rintro ⟨h2, a2, habs⟩
          exact ConnectRequest.noConfusion habs
  | tunnel head addr =>
    constructor
    · intro r hr
      simp only [RetryService.call] at hr
      simp only [sentRequest]
      cases hc : conn 0 (ConnectRequest.tunnel head addr) with
      | ok r2 =>
        rw [hc] at hr
        simp at hr
        exact ⟨0, by rw [hc, hr]⟩
      | error e2 =>
        rw [hc] at hr
        simp at hr
    · intro e he
      simp only [RetryService.call] at he ⊢
      simp only [sentRequest]
      cases hc : conn 0 (ConnectRequest.tunnel head addr) with
      | ok r2 =>
        rw [hc] at he
        simp at he
      | error e2 =>
        rw [hc] at he
        refine ⟨?_, ?_, fun _ => ?_⟩
        · intro i hi
          simp at hi
          rw [hi]
          exact ⟨e2, hc⟩
        · rintro ⟨h2, b2, a2, habs⟩
          exact ConnectRequest.noConfusion habs
        · simp

/-- Claim C8: `is_valid_response` is the conjunction over the policy list
of each policy's verdict on the head — true iff every contained policy
accepts it — and an empty policy list accepts every head. -/
theorem c8_policyset_conjunction (inner : Inner) (head : ResponseHead) :
    (inner.is_valid_response head = true ↔
      ∀ p ∈ inner.policies, p.accepts head = true) ∧
    (inner.policies = [] → inner.is_valid_response head = true) := by
  have h0 : inner.is_valid_response head
      = inner.policies.all (fun p => p.accepts head) := rfl
  constructor
  · rw [h0]
    exact List.all_eq_true
  · intro hp
    rw [h0, hp]
    rfl

/-- Claim C9: in the Buffered-body path, when the connector only ever
answers with client (non-tunnel) responses, every head handed to the
policy evaluation is the freshly constructed `ResponseHead::new(200)` —
status 200, no headers — never the actual response's head, so a custom
policy cannot observe the real status or headers. -/
theorem c9_policy_evaluated_on_fresh_ok_head (inner : Inner) (conn : Connector)
    (head : RequestHeadType) (b : List Nat) (addr : Option String)
    (hclient : ∀ i res,
      conn i (sentRequest (ConnectRequest.client head (Body.bytes b) addr))
        = Except.ok res → ∃ c, res = ConnectResponse.client c) :
    (∀ x ∈ (RetryService.call inner conn
        (ConnectRequest.client head (Body.bytes b) addr)).evals,
      x = ResponseHead.new StatusCode.OK) ∧
    ResponseHead.new StatusCode.OK = { status := 200, headers := [] } := by
  simp only [sentRequest, sentBody] at hclient
  refine ⟨?_, rfl⟩
  intro x hx
  simp only [RetryService.call] at hx
  rcases bytesLoop_evals_fresh inner conn head b addr hclient
    (inner.max_retries + 1) 0 [] [] x hx with h | h
  · cases h
  · exact h

/-- Claim C9, witness: a connector answering 500 with headers; the one
evaluated head of the run is still the stock 200 head. -/
theorem c9_witness :
    ResponseHead.mk 200 [] = ResponseHead.new StatusCode.OK :=
  (c9_policy_evaluated_on_fresh_ok_head rejectAllInner okClient500Conn
    (RequestHeadType.owned RequestHead.default) [104] Option.none
    (by
      intro i res h
      simp only [okClient500Conn] at h
      injection h with h2
      exact ⟨_, h2.symm⟩)).1
    (ResponseHead.mk 200 []) (by decide)

/-- Claim C10: for a request whose body is neither buffered bytes nor
empty, every request the loop hands to the connector carries `Body.none`
in place of the original body — the original body content is never
transmitted on any attempt. -/
theorem c10_unreplayable_sends_none_body (inner : Inner) (conn : Connector)
    (head : RequestHeadType) (addr : Option String) (body : Body)
    (hb : ∀ bs, body = Body.bytes bs → False) (he : body = Body.empty → False) :
    ∀ r ∈ (RetryService.call inner conn (ConnectRequest.client head body addr)).calls,
      r = ConnectRequest.client (clone_request_head_type head) Body.none addr := by
  intro r hr
  have key : RetryService.call inner conn (ConnectRequest.client head body addr)
      = otherLoop inner conn head addr (inner.max_retries + 1) 0 [] := by
    cases body with
    | none => rfl
    | empty => exact absurd rfl he
    | bytes bs => exact absurd rfl (hb bs)
    | message t => rfl
  rw [key] at hr
  obtain ⟨k, hk1, hk⟩ := otherLoop_calls_shape inner conn head addr
    (inner.max_retries + 1) 0 []
  rw [hk, List.nil_append] at hr
  exact List.eq_of_mem_replicate hr

/-- Claim C10, witness: a message-body request with a populated head; the
(sole kind of) request handed to the connector carries the cloned head
and the `None` body. -/
theorem c10_witness :
    ConnectRequest.client (RequestHeadType.owned
        { method := "POST", uri := "/x", version := 11, peer_addr := some "peer",
          headers := [("a", ["1", "2"])], extensions := [] })
      Body.none Option.none
      = ConnectRequest.client (clone_request_head_type (RequestHeadType.owned hdrX))
          Body.none Option.none :=
  c10_unreplayable_sends_none_body { max_retries := 1, policies := [] }
    alwaysErrConn (RequestHeadType.owned hdrX) Option.none (Body.message 7)
    (fun _ h => Body.noConfusion h) (fun h => Body.noConfusion h)
    (ConnectRequest.client (RequestHeadType.owned
        { method := "POST", uri := "/x", version := 11, peer_addr := some "peer",
          headers := [("a", ["1", "2"])], extensions := [] })
      Body.none Option.none)
    (by decide)

end AwcRetry
